import Mathlib

/-
  Verification development for the google-reviews-scraper repository.

  This file shallowly embeds the algorithmic core of the repository
  (`modules/date_converter.py`, `modules/data_storage.py`,
  `modules/image_handler.py`, `modules/utils.py`, and the collection loop of
  `modules/scraper.py`) into Lean and proves or refutes the frozen claims
  about it.

  Modelling conventions, used throughout:
  * Python `datetime` values are modelled by `Int` — the number of seconds
    relative to the Unix epoch.  `datetime.isoformat` is injective on
    datetimes, so an ISO-8601 timestamp string is represented by the
    timestamp it denotes.  Python datetimes are bounded
    (`datetime.min = 0001-01-01T00:00`, `datetime.max =
    9999-12-31T23:59:59.999999`); arithmetic leaving that range raises
    `OverflowError`, which the embedding represents by `Option`/a `raised`
    result (we work at second precision, dropping `datetime.max`'s final
    `.999999` fraction).  `timedelta(days=n)` itself raises for
    `n > 999999999`.
  * `random.randint(1, 365)` is modelled by an explicit seed parameter
    `rnd : Nat`, from which the drawn value is `1 + rnd % 365 ∈ [1, 365]`;
    the code's draw is nondeterministic, the embedding makes the choice an
    input.
  * Python dicts with identifier keys are modelled as structures with
    `Option` fields (`none` = key absent); dicts used as maps are
    association lists with insertion-ordered keys; Python sets are
    modelled as duplicate-free lists in first-insertion order (Python's
    set iteration order is unspecified, the embedding fixes one
    enumeration).
  * Python floats (the review rating) are modelled as `ℚ`: the code only
    copies ratings and tests them for truthiness, it never does float
    arithmetic.
  * `re` patterns are compiled to direct matchers implementing the
    leftmost-search-with-backtracking semantics of the three fixed
    patterns appearing in the source.  `\s`/`str.strip` are modelled on
    the six ASCII whitespace characters and `\d` on the ASCII digits.
-/

namespace Scraper

/-! ### Python string primitives -/

/-- ASCII whitespace as matched by `\s` / stripped by `str.strip()`
(restricted to the six ASCII whitespace characters). -/
def isPySpace (c : Char) : Bool :=
  c = ' ' || c = '\t' || c = '\n' || c = '\r' || c = '\x0b' || c = '\x0c'

def isAsciiDigit (c : Char) : Bool :=
  '0' ≤ c && c ≤ '9'

/-- Numeric value of an ASCII digit run (Python `int` on a digit string). -/
def digitsToNat (cs : List Char) : Nat :=
  cs.foldl (fun n c => 10 * n + (c.toNat - '0'.toNat)) 0

/-- Python `str.lower()` (the language codes compared with it are
ASCII; `Char.toLower` agrees with Python there). -/
def pyLower (s : String) : String :=
  String.mk (s.data.map Char.toLower)


def stripWsLeft : List Char → List Char
  | [] => []
  | c :: r => if isPySpace c then stripWsLeft r else c :: r

/-- Python `str.strip()` (over the ASCII whitespace characters). -/
def pyStrip (cs : List Char) : List Char :=
  ((stripWsLeft ((stripWsLeft cs).reverse)).reverse)

/-- Case-insensitive literal match: `lit` (given in lowercase) against a
prefix of `cs`; returns the remainder on success. -/
def matchCI : List Char → List Char → Option (List Char)
  | [], cs => some cs
  | _, [] => none
  | l :: ls, c :: cs => if c.toLower = l then matchCI ls cs else none

/-- Case-sensitive literal match, returning the remainder on success. -/
def matchLit : List Char → List Char → Option (List Char)
  | [], cs => some cs
  | _, [] => none
  | l :: ls, c :: cs => if c = l then matchLit ls cs else none

/-- Python `str.startswith`. -/
def pyStartsWith (s pre : String) : Bool :=
  (matchLit pre.data s.data).isSome

/-- Python `str.endswith`. -/
def pyEndsWith (s suff : String) : Bool :=
  (matchLit suff.data.reverse s.data.reverse).isSome

/-- `\s+`: at least one whitespace character, consumed greedily. -/
def wsPlus : List Char → Option (List Char)
  | [] => none
  | c :: r => if isPySpace c then some (stripWsLeft r) else none

/-- `\s*`: whitespace consumed greedily. -/
def wsStar (cs : List Char) : List Char :=
  stripWsLeft cs

/-- Python `str.split(sep)` for a single-character separator
(keeps empty pieces). -/
def pySplitChar (sep : Char) : List Char → List (List Char)
  | [] => [[]]
  | c :: r =>
    let rest := pySplitChar sep r
    if c = sep then [] :: rest
    else
      match rest with
      | [] => [[c]]
      | p :: ps => (c :: p) :: ps

/-- Python `str.rstrip(ch)` for a single character. -/
def rstripChar (ch : Char) (cs : List Char) : List Char :=
  ((cs.reverse.dropWhile (fun c => c = ch)).reverse)

/-- Python `str.strip(ch)` for a single character. -/
def stripBothChar (ch : Char) (cs : List Char) : List Char :=
  rstripChar ch (cs.dropWhile (fun c => c = ch))

/-! ### `modules/utils.py`: language detection

`detect_lang` classifies a text as Hebrew / Thai / English by scanning for
characters in the Hebrew (U+0590–U+05FF) and Thai (U+0E00–U+0E7F) blocks. -/

def detect_lang (txt : String) : String :=
  if txt.data.any (fun c => 0x590 ≤ c.toNat && c.toNat ≤ 0x5FF) then "he"
  else if txt.data.any (fun c => 0xE00 ≤ c.toNat && c.toNat ≤ 0xE7F) then "th"
  else "en"

/-! ### `modules/date_converter.py`: the relative-date normalizer

Python's `datetime` range, in seconds relative to the Unix epoch. -/

/-- `datetime.min = 0001-01-01T00:00:00` as epoch seconds. -/
def minDt : Int := -62135596800

/-- `datetime.max = 9999-12-31T23:59:59(.999999)` as epoch seconds. -/
def maxDt : Int := 253402300799

/-- `timedelta` accepts at most this many days. -/
def tdMaxDays : Nat := 999999999

/-- Outcome of `try_parse_date`: the original string came back (`nomatch`),
an exception escaped (`raised`), or an ISO timestamp was produced. -/
inductive TpRes where
  | nomatch : TpRes
  | raised : TpRes
  | parsed : Int → TpRes
deriving DecidableEq, Repr

/-- `now - timedelta(days=days)` followed by `.isoformat()`: raises when the
timedelta is too large or the result leaves the `datetime` range. -/
def finishParse (now : Int) (days : Nat) : TpRes :=
  if tdMaxDays < days then .raised
  else if minDt ≤ now - (days : Int) * 86400 ∧ now - (days : Int) * 86400 ≤ maxDt then
    .parsed (now - (days : Int) * 86400)
  else .raised

/-! English pattern `(?P<num>a|an|\d+)\s+(?P<unit>day|week|month|year)s?\s+ago`
(IGNORECASE, `re.search`).  The matcher returns the matched relative offset
in days. -/

def enUnitDays (cs : List Char) : Option (Nat × List Char) :=
  match matchCI ['d', 'a', 'y'] cs with
  | some r => some (1, r)
  | none =>
    match matchCI ['w', 'e', 'e', 'k'] cs with
    | some r => some (7, r)
    | none =>
      match matchCI ['m', 'o', 'n', 't', 'h'] cs with
      | some r => some (30, r)
      | none =>
        match matchCI ['y', 'e', 'a', 'r'] cs with
        | some r => some (365, r)
        | none => none

/-- `\s+ago` after the optional plural `s`. -/
def agoTail (cs : List Char) : Bool :=
  match wsPlus cs with
  | some cs' => (matchCI ['a', 'g', 'o'] cs').isSome
  | none => false

/-- `s?\s+ago`: the greedy optional `s` is tried first; if the tail fails
the backtracked branch needs whitespace at the `s`, which also fails. -/
def enTail : List Char → Bool
  | [] => false
  | c :: r => if c.toLower = 's' then agoTail r else agoTail (c :: r)

/-- `\s+(unit)s?\s+ago` with the captured number already read. -/
def enCont (n : Nat) (cs : List Char) : Option Nat :=
  match wsPlus cs with
  | none => none
  | some cs =>
    match enUnitDays cs with
    | none => none
    | some (u, cs) => if enTail cs then some (n * u) else none

/-- One attempt of the English pattern at the current position; the
alternation `a|an|\d+` is tried in that order. -/
def enMatchAt : List Char → Option Nat
  | [] => none
  | c :: r =>
    if c.toLower = 'a' then
      match enCont 1 r with
      | some d => some d
      | none =>
        match r with
        | c2 :: r2 => if c2.toLower = 'n' then enCont 1 r2 else none
        | [] => none
    else if isAsciiDigit c then
      enCont (digitsToNat ((c :: r).takeWhile isAsciiDigit))
        ((c :: r).dropWhile isAsciiDigit)
    else none

/-- `re.search`: leftmost position at which the English pattern matches. -/
def enSearchDays : List Char → Option Nat
  | [] => none
  | c :: r =>
    match enMatchAt (c :: r) with
    | some d => some d
    | none => enSearchDays r

/-! Hebrew: after stripping a leading `לפני`, either a special compound
form, or the pattern
`(?P<num>\d+|אחד|אחת)?\s*(?P<unit>שנה|שנים|חודש|חודשים|יום|ימים|שבוע|שבועות)`. -/

def heUnitDays (cs : List Char) : Option Nat :=
  if (matchLit "שנה".data cs).isSome then some 365
  else if (matchLit "שנים".data cs).isSome then some 365
  else if (matchLit "חודש".data cs).isSome then some 30
  else if (matchLit "חודשים".data cs).isSome then some 30
  else if (matchLit "יום".data cs).isSome then some 1
  else if (matchLit "ימים".data cs).isSome then some 1
  else if (matchLit "שבוע".data cs).isSome then some 7
  else if (matchLit "שבועות".data cs).isSome then some 7
  else none

/-- The optional numeral: digits, or the words `אחד`/`אחת`, for which the
source's `int(...)` raises `ValueError` and falls back to 1. -/
def heNum (cs : List Char) : Option (Nat × List Char) :=
  match cs with
  | c :: _ =>
    if isAsciiDigit c then
      some (digitsToNat (cs.takeWhile isAsciiDigit), cs.dropWhile isAsciiDigit)
    else
      match matchLit "אחד".data cs with
      | some r => some (1, r)
      | none =>
        match matchLit "אחת".data cs with
        | some r => some (1, r)
        | none => none
  | [] => none

/-- One attempt of the Hebrew pattern at the current position: the greedy
optional numeral is tried first, then the numeral-less backtrack. -/
def heMatchAt (cs : List Char) : Option Nat :=
  match
    (match heNum cs with
     | some (n, r) => (heUnitDays (wsStar r)).map (fun u => n * u)
     | none => none)
  with
  | some d => some d
  | none => heUnitDays (wsStar cs)

def heSearchDays : List Char → Option Nat
  | [] => none
  | c :: r =>
    match heMatchAt (c :: r) with
    | some d => some d
    | none => heSearchDays r

/-- The Hebrew branch of `try_parse_date`: strip, drop a leading `לפני`,
check the three compound special cases, otherwise run the pattern. -/
def heBranchDays (s : List Char) : Option Nat :=
  let text := pyStrip s
  let text :=
    if (matchLit "לפני".data text).isSome then pyStrip (text.drop 4) else text
  if text = "חודשיים".data then some 60
  else if text = "שבועיים".data then some 14
  else if text = "יומיים".data then some 2
  else heSearchDays text

/-! Thai: `(?P<num>\d+)?\s*(?P<unit>วัน|สัปดาห์|เดือน|ปี)ที่แล้ว`. -/

def thUnitDays (cs : List Char) : Option (Nat × List Char) :=
  match matchLit "วัน".data cs with
  | some r => some (1, r)
  | none =>
    match matchLit "สัปดาห์".data cs with
    | some r => some (7, r)
    | none =>
      match matchLit "เดือน".data cs with
      | some r => some (30, r)
      | none =>
        match matchLit "ปี".data cs with
        | some r => some (365, r)
        | none => none

def thAfterNum (n : Nat) (cs : List Char) : Option Nat :=
  match thUnitDays (wsStar cs) with
  | some (u, r) =>
    if (matchLit "ที่แล้ว".data r).isSome then some (n * u) else none
  | none => none

def thMatchAt (cs : List Char) : Option Nat :=
  match cs with
  | c :: _ =>
    match
      (if isAsciiDigit c then
        thAfterNum (digitsToNat (cs.takeWhile isAsciiDigit))
          (cs.dropWhile isAsciiDigit)
      else none)
    with
    | some d => some d
    | none => thAfterNum 1 cs
  | [] => none

def thSearchDays : List Char → Option Nat
  | [] => none
  | c :: r =>
    match thMatchAt (c :: r) with
    | some d => some d
    | none => thSearchDays r

/-- `try_parse_date(date_str, lang, now)`: returns the computed ISO
timestamp, the original string (`nomatch`), or propagates an
`OverflowError` (`raised`). -/
def try_parse_date (s lang : String) (now : Int) : TpRes :=
  if pyLower lang = "en" then
    match enSearchDays s.data with
    | some d => finishParse now d
    | none => .nomatch
  else if pyLower lang = "he" then
    match heBranchDays s.data with
    | some d => finishParse now d
    | none => .nomatch
  else if pyLower lang = "th" then
    match thSearchDays s.data with
    | some d => finishParse now d
    | none => .nomatch
  else .nomatch

/-- The retry loop over the other supported languages. -/
def tryAltLangs : List String → String → Int → TpRes
  | [], _, _ => .nomatch
  | l :: rest, s, now =>
    match try_parse_date s l now with
    | .nomatch => tryAltLangs rest s now
    | r => r

/-- `parse_relative_date(date_str, lang, now)` with the random draw made
explicit (`rnd`).  `none` models an `OverflowError` escaping to the
caller; every returned value is an ISO-8601 timestamp string, represented
by its timestamp. -/
def parse_relative_date (s lang : String) (now : Int) (rnd : Nat) : Option Int :=
  match try_parse_date s lang now with
  | .parsed t => some t
  | .raised => none
  | .nomatch =>
    match tryAltLangs (["en", "he", "th"].filter (fun l => l ≠ pyLower lang)) s now with
    | .parsed t => some t
    | .raised => none
    | .nomatch =>
      let d : Nat := 1 + rnd % 365
      let r := now - (d : Int) * 86400
      if minDt ≤ r ∧ r ≤ maxDt then some r else none

/-- `relative_to_datetime(date_str, lang)`: wraps the parse in
`try/except`, so a raised `OverflowError` becomes `None`.  Because
`parse_relative_date` never returns its input (it falls back to a random
date), the source's `iso_date == date_str` guard is dead, and
`datetime.fromisoformat` always succeeds on the produced ISO string. -/
def relative_to_datetime (s lang : String) (now : Int) (rnd : Nat) : Option Int :=
  if s = "" then none
  else parse_relative_date s lang now rnd

/-! ### Association-list operations for Python dicts

Python dicts keep one entry per key in first-insertion order; assignment
to a present key updates in place, assignment to an absent key appends. -/

/-- Dict lookup: value of the first entry with the given key. -/
def alookup {β : Type} (m : List (String × β)) (k : String) : Option β :=
  (m.find? (fun p => p.1 = k)).map (fun p => p.2)

/-- Dict assignment `m[k] = v`. -/
def aupsert {β : Type} (m : List (String × β)) (k : String) (v : β) :
    List (String × β) :=
  if m.any (fun p => p.1 = k) then
    m.map (fun p => if p.1 = k then (k, v) else p)
  else m ++ [(k, v)]

/-- Python set insertion, modelled in first-insertion order. -/
def pyInsertU (acc : List String) (x : String) : List String :=
  if x ∈ acc then acc else acc ++ [x]

/-- `list({*l})`: deduplicate, modelled in first-occurrence order
(CPython's actual set iteration order is unspecified). -/
def pySetList (l : List String) : List String :=
  l.foldl pyInsertU []

/-! ### `modules/models.py`: `RawReview` -/

/-- One raw review observation (`RawReview`), as built by `from_card`.
Ratings are `ℚ` (see the header note on floats). -/
structure RawReview where
  id : String := ""
  author : String := ""
  rating : ℚ := 0
  date : String := ""
  lang : String := "und"
  text : String := ""
  likes : Int := 0
  photos : List String := []
  profile : String := ""
  avatar : String := ""
  owner_date : String := ""
  owner_text : String := ""
  review_date : String := ""
deriving DecidableEq, Repr

/-! ### The stored review document

A value of a date-bearing dict entry: an ISO-8601 string (represented by
its timestamp), a string `fromisoformat` rejects, or a `datetime` object. -/

inductive DVal where
  | isoStr : Int → DVal
  | rawStr : String → DVal
  | dtv : Int → DVal
deriving DecidableEq, Repr

/-- A value of `owner_responses[lang]`: `{"text": ..., "date"?: ...}`. -/
structure OwnerResp where
  text : String := ""
  date : Option String := none
deriving DecidableEq, Repr

/-- The review document dict.  `none` = key absent.  `extra` holds
caller-supplied custom parameters (the embedding keeps them apart from
the schema fields; a custom parameter whose key collides with a schema
field is not modelled). -/
structure Rec where
  review_id : String := ""
  author : String := ""
  rating : Option ℚ := none
  description : Option (List (String × String)) := none
  likes : Option Int := none
  user_images : Option (List String) := none
  author_profile_url : Option String := none
  profile_picture : Option String := none
  owner_responses : Option (List (String × OwnerResp)) := none
  created_date : Option DVal := none
  review_date : Option DVal := none
  last_modified_date : Option DVal := none
  texts : Option (List (String × String)) := none
  photo_urls : Option (List String) := none
  profile_link : Option String := none
  avatar_url : Option String := none
  date : Option String := none
  local_images : Option (List String) := none
  local_profile_picture : Option String := none
  original_image_urls : Option (List String) := none
  original_profile_picture : Option String := none
  extra : List (String × String) := []
deriving DecidableEq, Repr

/-! ### `modules/data_storage.py`: `merge_review`

`merge_review(existing, raw)` is split as in the source: the
creation branch, the legacy-field migration branch, and the common
update section.  The result is `Option Rec`: `none` models an exception
escaping the call (a `KeyError` when `existing` lacks a `description`
dict and the fragment has body text, or an `OverflowError` out of
`parse_relative_date`). -/

/-- Truthiness of `existing.get("rating")`. -/
def recRatingTruthy (r : Rec) : Bool :=
  match r.rating with
  | some q => q ≠ 0
  | none => false

/-- Truthiness of `existing.get("profile_picture")`. -/
def recPpTruthy (r : Rec) : Bool :=
  match r.profile_picture with
  | some s => s ≠ ""
  | none => false

/-- The new-document branch of `merge_review` (`existing` falsy). -/
def newRecordOf (raw : RawReview) (now : Int) (rnd : Nat) : Option Rec :=
  (parse_relative_date raw.date "en" now rnd).map (fun t =>
    { review_id := raw.id
      author := raw.author
      rating := some raw.rating
      description := some []
      likes := some raw.likes
      user_images := some raw.photos
      author_profile_url := some raw.profile
      profile_picture := some raw.avatar
      owner_responses := some []
      created_date := some (.isoStr now)
      review_date := some (.isoStr t) })

/-- The four legacy-field renames at the head of `merge_review`'s
`existing` branch. -/
def migrateRenames (e : Rec) : Rec :=
  let e :=
    if e.texts.isSome ∧ e.description.isNone then
      { e with description := e.texts, texts := none }
    else e
  let e :=
    if e.photo_urls.isSome ∧ e.user_images.isNone then
      { e with user_images := e.photo_urls, photo_urls := none }
    else e
  let e :=
    if e.profile_link.isSome ∧ e.author_profile_url.isNone then
      { e with author_profile_url := e.profile_link, profile_link := none }
    else e
  if e.avatar_url.isSome ∧ e.profile_picture.isNone then
    { e with profile_picture := e.avatar_url, avatar_url := none }
  else e

/-- `if "created_date" not in existing: ...` -/
def backfillCreated (e : Rec) (now : Int) : Rec :=
  if e.created_date.isNone then { e with created_date := some (.isoStr now) }
  else e

/-- `if "date" in existing: del existing["date"]` -/
def delLegacyDate (e : Rec) : Rec :=
  if e.date.isSome then { e with date := none } else e

/-- The legacy-field migration sequence of `merge_review` (the
`existing` branch), including the `created_date`/`review_date`
backfills and the deletion of a legacy `date` key. -/
def migrateLegacy (e : Rec) (raw : RawReview) (now : Int) (rnd : Nat) :
    Option Rec :=
  let e := backfillCreated (migrateRenames e) now
  (if e.review_date.isNone then
      (parse_relative_date raw.date "en" now rnd).map (fun t =>
        { e with review_date := some (.isoStr t) })
    else some e).map delLegacyDate

/-- `if raw.text: existing["description"][raw.lang] = raw.text` (the
guard in `mergeCommon` rules out the `KeyError` case first). -/
def updDescription (e : Rec) (raw : RawReview) : Rec :=
  if raw.text ≠ "" then
    { e with description := some (aupsert (e.description.getD []) raw.lang raw.text) }
  else e

/-- `if not existing.get("rating"): existing["rating"] = raw.rating` -/
def updRating (e : Rec) (raw : RawReview) : Rec :=
  if ¬recRatingTruthy e then { e with rating := some raw.rating } else e

/-- `if raw.likes > existing.get("likes", 0): ...` -/
def updLikes (e : Rec) (raw : RawReview) : Rec :=
  if e.likes.getD 0 < raw.likes then { e with likes := some raw.likes } else e

/-- `existing["user_images"] = list({*existing.get("user_images", []), *raw.photos})` -/
def updImages (e : Rec) (raw : RawReview) : Rec :=
  { e with user_images := some (pySetList (e.user_images.getD [] ++ raw.photos)) }

/-- `if raw.avatar and (not existing.get("profile_picture") or len(...) > len(...)): ...` -/
def updAvatar (e : Rec) (raw : RawReview) : Rec :=
  if raw.avatar ≠ "" ∧
      (¬recPpTruthy e ∨ (e.profile_picture.getD "").length < raw.avatar.length) then
    { e with profile_picture := some raw.avatar }
  else e

/-- `if raw.owner_text: existing.setdefault("owner_responses", {})[lang] = {...}` -/
def updOwner (e : Rec) (raw : RawReview) : Rec :=
  if raw.owner_text ≠ "" then
    let m := aupsert (e.owner_responses.getD []) (detect_lang raw.owner_text)
      { text := raw.owner_text, date := none }
    { e with owner_responses := some m }
  else e

/-- The common update section of `merge_review` (source lines 292–319),
as the composition of its six field updates followed by the
`last_modified_date` stamp. -/
def mergeCommon (e : Rec) (raw : RawReview) (now : Int) : Option Rec :=
  if raw.text ≠ "" ∧ e.description.isNone then none
  else
    some { updOwner (updAvatar (updImages (updLikes (updRating
            (updDescription e raw) raw) raw) raw) raw) raw with
           last_modified_date := some (.isoStr now) }

/-- `merge_review(existing, raw)`, with the two clock reads
(`get_current_iso_date` and the default `now` of `parse_relative_date`)
identified as the single instant `now`, and the random fallback seeded by
`rnd`. -/
def merge_review (existing : Option Rec) (raw : RawReview) (now : Int)
    (rnd : Nat) : Option Rec :=
  (match existing with
   | none => newRecordOf raw now rnd
   | some e => migrateLegacy e raw now rnd).bind
    (fun e => mergeCommon e raw now)

/-! ### `modules/image_handler.py`: `ImageHandler`

The filesystem under `image_dir` is a set of `(in_profile_dir, filename)`
pairs (the handler writes only into its two subdirectories).  Network
success is an oracle `ok : String → Bool`; the thread pool's downloads
are sequenced in task order (one linearization of the bounded-concurrency
execution). -/

/-- The configuration fields `ImageHandler.__init__` reads. -/
structure IHConfig where
  store_local_paths : Bool := true
  replace_urls : Bool := false
  custom_url_base : String := "https://mycustomurl.com"
  custom_url_profiles : String := "/profiles/"
  custom_url_reviews : String := "/reviews/"
  preserve_original_urls : Bool := true
deriving DecidableEq, Repr

/-- `is_not_custom_url`. -/
def is_not_custom_url (cfg : IHConfig) (url : String) : Bool :=
  if url = "" then false
  else if cfg.custom_url_base ≠ "" && pyStartsWith url cfg.custom_url_base then false
  else true

/-- Leftmost match of `AIHoz[^=]+=` in `cs`, returned as the matched
characters. -/
def aihozAt (cs : List Char) : Option (List Char) :=
  match matchLit "AIHoz".data cs with
  | none => none
  | some r =>
    let run := r.takeWhile (fun c => c ≠ '=')
    if run = [] then none
    else
      match r.dropWhile (fun c => c ≠ '=') with
      | '=' :: _ => some ("AIHoz".data ++ run ++ ['='])
      | _ => none

def aihozSearch : List Char → Option (List Char)
  | [] => none
  | c :: r =>
    match aihozAt (c :: r) with
    | some m => some m
    | none => aihozSearch r

/-- `urlparse(url).path`, for the URL shapes the handler meets: the part
after the `//`-authority up to the first `?` or `#`; a URL without `//`
is all path (queries/fragments still stripped). -/
def urlPath (s : String) : String :=
  let cs := s.data
  let rest :=
    match matchLit "//".data (cs.dropWhile (fun c => c ≠ '/')) with
    | some afterSlashes => afterSlashes.dropWhile (fun c => c ≠ '/')
    | none => cs
  String.mk (rest.takeWhile (fun c => c ≠ '?' ∧ c ≠ '#'))

/-- `get_filename_from_url(url, is_profile)`. -/
def get_filename_from_url (cfg : IHConfig) (url : String) (forProfile : Bool) :
    String :=
  if url = "" then ""
  else if ¬is_not_custom_url cfg url then ""
  else
    let reviewStyle : String :=
      match aihozSearch url.data with
      | some m => String.mk (rstripChar '=' m) ++ "w600-h450-p.jpg"
      | none =>
        let fn := String.mk ((pySplitChar '/' (urlPath url).data).getLastD [])
        if pyEndsWith (pyLower fn) ".jpg" then fn else fn ++ ".jpg"
    if forProfile then
      let parts := pySplitChar '/' url.data
      if 1 < parts.length then
        let lastPart := String.mk (parts.getLastD [])
        let fn :=
          if lastPart = "" ∨ lastPart = "w72-h72-p-rp-mo-ba4-br100" then
            String.mk ((parts.drop (parts.length - 2)).headD [])
          else lastPart
        fn ++ ".jpg"
      else reviewStyle
    else reviewStyle

/-- `get_custom_url(filename, is_profile)`. -/
def get_custom_url (cfg : IHConfig) (filename : String) (forProfile : Bool) :
    String :=
  if ¬cfg.replace_urls ∨ filename = "" then ""
  else
    let base := String.mk (rstripChar '/' cfg.custom_url_base.data)
    let path := String.mk (stripBothChar '/'
      (if forProfile then cfg.custom_url_profiles.data else cfg.custom_url_reviews.data))
    base ++ "/" ++ path ++ "/" ++ filename

/-- The filesystem under `image_dir`: which `(profile_dir?, filename)`
files exist. -/
abbrev FileSys := List (Bool × String)

/-- `download_image((url, is_profile))` threading the filesystem.
Returns `((url, local_filename, custom_url), files')`; a cached file is
not re-fetched, a failed fetch yields empty results for this URL only. -/
def download_image (cfg : IHConfig) (ok : String → Bool) (files : FileSys)
    (url : String) (forProfile : Bool) :
    (String × String × String) × FileSys :=
  if ¬is_not_custom_url cfg url then ((url, "", ""), files)
  else
    let filename := get_filename_from_url cfg url forProfile
    if filename = "" then ((url, "", ""), files)
    else if (forProfile, filename) ∈ files then
      ((url, filename, get_custom_url cfg filename forProfile), files)
    else if ok url then
      ((url, filename, get_custom_url cfg filename forProfile),
        (forProfile, filename) :: files)
    else ((url, "", ""), files)

/-- Add the non-custom URLs of `l` to the collection set `acc`. -/
def collectFrom (cfg : IHConfig) (acc : List String) (l : List String) :
    List String :=
  l.foldl (fun acc u => if is_not_custom_url cfg u then pyInsertU acc u else acc) acc

/-- Phase 1 of `download_all_images`: the deduplicated review-image and
profile-picture URL sets, gathered over the record map in order. -/
def collectUrls (cfg : IHConfig) (reviews : List (String × Rec)) :
    List String × List String :=
  reviews.foldl
    (fun (acc : List String × List String) p =>
      let r := p.2
      let rurls :=
        match r.user_images with
        | some imgs =>
          let a := collectFrom cfg acc.1 imgs
          match r.original_image_urls with
          | some origs => collectFrom cfg a origs
          | none => a
        | none => acc.1
      let purls :=
        match r.profile_picture with
        | some pp =>
          if pp ≠ "" then
            let a := collectFrom cfg acc.2 [pp]
            match r.original_profile_picture with
            | some op => if op ≠ "" then collectFrom cfg a [op] else a
            | none => a
          else acc.2
        | none => acc.2
      (rurls, purls))
    ([], [])

/-- Phase 3: run the download tasks in order, accumulating the
`url → filename` and `url → custom_url` dicts. -/
def runDownloads (cfg : IHConfig) (ok : String → Bool) :
    List (String × Bool) → FileSys →
    List (String × String) → List (String × String) →
    (List (String × String) × List (String × String) × FileSys)
  | [], files, fnMap, cuMap => (fnMap, cuMap, files)
  | (url, forProfile) :: rest, files, fnMap, cuMap =>
    let ((u, fn, cu), files') := download_image cfg ok files url forProfile
    let fnMap := if fn ≠ "" then aupsert fnMap u fn else fnMap
    let cuMap := if cu ≠ "" then aupsert cuMap u cu else cuMap
    runDownloads cfg ok rest files' fnMap cuMap

/-- Phase 4, the `user_images` block (source lines 227–251), applied to
the original-URL lookup list computed beforehand. -/
def rewriteImagesPart (cfg : IHConfig) (fnMap cuMap : List (String × String))
    (origs : List String) (r : Rec) : Rec :=
  match r.user_images with
  | none => r
  | some cur =>
    let r1 :=
      if cfg.store_local_paths then
        let locals :=
          ((origs.filter (fun u => u ≠ "" && is_not_custom_url cfg u)).map
            (fun u => (alookup fnMap u).getD "")).filter (fun f => f ≠ "")
        { r with local_images := some locals }
      else r
    if cfg.replace_urls then
      let r2 :=
        if cfg.preserve_original_urls ∧ r1.original_image_urls.isNone then
          { r1 with original_image_urls := some cur }
        else r1
      let customImages :=
        origs.filterMap (fun u =>
          match alookup cuMap u with
          | some c => some c
          | none => if ¬is_not_custom_url cfg u then some u else none)
      if customImages ≠ [] then { r2 with user_images := some customImages }
      else r2
    else r1

/-- Phase 4, the `profile_picture` block (source lines 253–277), applied
to the original-profile-URL lookup key computed beforehand. -/
def rewriteProfilePart (cfg : IHConfig) (fnMap cuMap : List (String × String))
    (ppo : String) (r : Rec) : Rec :=
  match r.profile_picture with
  | none => r
  | some p =>
    if p = "" then r
    else
      let r1 :=
        if cfg.store_local_paths then
          match alookup fnMap ppo with
          | some fn => { r with local_profile_picture := some fn }
          | none => r
        else r
      if cfg.replace_urls then
        let r2 :=
          if cfg.preserve_original_urls ∧ r1.original_profile_picture.isNone then
            { r1 with original_profile_picture := some p }
          else r1
        match alookup cuMap ppo with
        | some cu => { r2 with profile_picture := some cu }
        | none =>
          if ¬is_not_custom_url cfg p then r2
          else if ppo ≠ "" then
            match alookup fnMap ppo with
            | some fn =>
              let cu := get_custom_url cfg fn true
              if cu ≠ "" then { r2 with profile_picture := some cu } else r2
            | none => r2
          else r2
      else r1

/-- The original-URL lookup list for `user_images` (source lines 215–219). -/
def userImagesOriginalOf (r : Rec) : List String :=
  match r.original_image_urls with
  | some origs => origs
  | none =>
    match r.user_images with
    | some imgs => imgs
    | none => []

/-- The original-URL lookup key for `profile_picture` (source lines
221–225). -/
def profilePictureOriginalOf (r : Rec) : String :=
  match r.original_profile_picture with
  | some op =>
    if op ≠ "" then op
    else
      match r.profile_picture with
      | some p => p
      | none => ""
  | none =>
    match r.profile_picture with
    | some p => p
    | none => ""

/-- Phase 4 for one record (source lines 210–277). -/
def rewriteReview (cfg : IHConfig) (fnMap cuMap : List (String × String))
    (r : Rec) : Rec :=
  rewriteProfilePart cfg fnMap cuMap (profilePictureOriginalOf r)
    (rewriteImagesPart cfg fnMap cuMap (userImagesOriginalOf r) r)

/-- `download_all_images(reviews)`: collect, download, rewrite.  Returns
the updated record map and the filesystem.  When there is nothing to
download the record map is returned untouched (the source's early
return). -/
def download_all_images (cfg : IHConfig) (ok : String → Bool) (files : FileSys)
    (reviews : List (String × Rec)) : List (String × Rec) × FileSys :=
  let (rurls, purls) := collectUrls cfg reviews
  let tasks := rurls.map (fun u => (u, false)) ++ purls.map (fun u => (u, true))
  if tasks = [] then (reviews, files)
  else
    let (fnMap, cuMap, files') := runDownloads cfg ok tasks files [] []
    (reviews.map (fun p => (p.1, rewriteReview cfg fnMap cuMap p.2)), files')

/-! ### `modules/date_converter.py`: `DateConverter` and
`modules/data_storage.py`: `JSONStorage` -/

/-- Truthiness of a date-field value (`not doc["review_date"]`): only the
empty string is falsy — an ISO string is never empty and a `datetime` is
always truthy. -/
def dvalFalsy : Option DVal → Bool
  | none => true
  | some (.rawStr s) => s = ""
  | some (.isoStr _) => false
  | some (.dtv _) => false

/-- `next(iter(doc.get("description", {}).keys()), "en")`. -/
def firstDescLang (r : Rec) : String :=
  match r.description with
  | some ((k, _) :: _) => k
  | _ => "en"

/-- One date field's pass through `convert_dates_in_document`'s loop:
an ISO string parses via `fromisoformat`; any other string is retried as
a relative date (which succeeds unless it is empty or the parse
overflows); a `datetime` is left alone. -/
def convertDateField (lang : String) (now : Int) (rnd : Nat) :
    Option DVal → Option DVal
  | some (.isoStr t) => some (.dtv t)
  | some (.rawStr s) =>
    match relative_to_datetime s lang now rnd with
    | some t => some (.dtv t)
    | none => some (.rawStr s)
  | v => v

/-- `DateConverter.convert_dates_in_document`. -/
def convert_dates_in_document (r : Rec) (now : Int) (rnd : Nat) : Rec :=
  let r :=
    match r.date with
    | none => r
    | some od =>
      let r' := { r with date := none }
      if dvalFalsy r'.review_date then
        match relative_to_datetime od (firstDescLang r') now rnd with
        | some t => { r' with review_date := some (.dtv t) }
        | none => r'
      else r'
  let lang := firstDescLang r
  { r with
    created_date := convertDateField lang now rnd r.created_date
    last_modified_date := convertDateField lang now rnd r.last_modified_date
    review_date := convertDateField lang now rnd r.review_date
    owner_responses :=
      r.owner_responses.map (fun m => m.map (fun p => (p.1, { p.2 with date := none }))) }

/-- The configuration fields `JSONStorage.__init__` reads (shared with
the `ImageHandler` it constructs). -/
structure SCfg where
  convert_dates : Bool := true
  download_images : Bool := false
  custom_params : List (String × String) := []
  ih : IHConfig := {}
deriving Repr

/-- The final `isinstance(value, datetime)` → `.isoformat()` sweep of
`save_json_docs`. -/
def dtFieldToIso : Option DVal → Option DVal
  | some (.dtv t) => some (.isoStr t)
  | v => v

def recDtToIso (r : Rec) : Rec :=
  { r with
    created_date := dtFieldToIso r.created_date
    last_modified_date := dtFieldToIso r.last_modified_date
    review_date := dtFieldToIso r.review_date }

/-- `JSONStorage.save_json_docs(docs)`: the produced JSON array,
abstracted as the list of written documents (in dict order). -/
def save_json_docs (cfg : SCfg) (ok : String → Bool) (files : FileSys)
    (now : Int) (rnd : Nat) (docs : List (String × Rec)) : List Rec :=
  let processed := docs
  let processed :=
    if cfg.convert_dates then
      processed.map (fun p => (p.1, convert_dates_in_document p.2 now rnd))
    else processed
  let processed :=
    if cfg.download_images then
      let enriched := (download_all_images cfg.ih ok files processed).1
      let enriched :=
        if ¬cfg.ih.store_local_paths then
          enriched.map (fun p =>
            (p.1, { p.2 with local_images := none, local_profile_picture := none }))
        else enriched
      if cfg.ih.replace_urls ∧ ¬cfg.ih.preserve_original_urls then
        enriched.map (fun p =>
          (p.1, { p.2 with original_image_urls := none, original_profile_picture := none }))
      else enriched
    else processed
  let processed :=
    if cfg.custom_params ≠ [] then
      processed.map (fun p =>
        (p.1, { p.2 with
          extra := cfg.custom_params.foldl (fun ex kv => aupsert ex kv.1 kv.2) p.2.extra }))
    else processed
  (processed.map (fun p => recDtToIso p.2))

/-- `JSONStorage.load_json_docs()` applied to a (parsed) JSON array:
index the documents by `review_id`, skipping documents with a falsy id
(dict-comprehension semantics). -/
def load_json_docs (data : List Rec) : List (String × Rec) :=
  (data.filterMap (fun d =>
    if d.review_id ≠ "" then some (d.review_id, d) else none)).foldl
    (fun acc p => aupsert acc p.1 p.2) []

/-! ### Seen-id persistence: `save_seen` / `load_seen` -/

/-- `"\n".join(ids)`, over one enumeration of the Python set. -/
def pyJoinNl : List String → String
  | [] => ""
  | [x] => x
  | x :: y :: r => x ++ "\n" ++ pyJoinNl (y :: r)

/-- The line boundaries recognized by Python `str.splitlines()`. -/
def isLineBoundary (c : Char) : Bool :=
  c = '\n' || c = '\r' || c = '\x0b' || c = '\x0c' ||
  c = '\x1c' || c = '\x1d' || c = '\x1e' || c = '\x85' ||
  c = '\u2028' || c = '\u2029'

/-- The state machine of `str.splitlines`: `afterCr` records that the
previous character was a `\r` whose line is already emitted, so that a
directly following `\n` is part of the same `\r\n` boundary. -/
def splitlinesAux (acc : List Char) (afterCr : Bool) : List Char → List (List Char)
  | [] => if acc.isEmpty then [] else [acc.reverse]
  | c :: rest =>
    if afterCr && c = '\n' then splitlinesAux acc false rest
    else if c = '\r' then acc.reverse :: splitlinesAux [] true rest
    else if isLineBoundary c then acc.reverse :: splitlinesAux [] false rest
    else splitlinesAux (c :: acc) false rest

/-- Python `str.splitlines()`. -/
def pySplitlines (s : String) : List String :=
  (splitlinesAux [] false s.data).map String.mk

/-- `JSONStorage.save_seen(ids)`: the written file content. -/
def save_seen (ids : List String) : String :=
  pyJoinNl ids

/-- `JSONStorage.load_seen()` applied to the file content: the id list
read back (the caller builds a set from it). -/
def load_seen (content : String) : List String :=
  pySplitlines content

/-! ### `modules/scraper.py`: the collection loop of
`GoogleReviewsScraper.scrape` (lines 1098–1181)

Cards are abstracted by the `RawReview` they parse to (`from_card` is
UI-extraction glue); the page re-yields the same card list on every
iteration of the `while` loop.  `seen` and `processed_ids` are Python
sets, modelled in insertion order; `docs` is the review dict. -/

structure SessionState where
  docs : List (String × Rec) := []
  seen : List String := []
  processed : List String := []
  idle : Nat := 0
  attempts : Nat := 0
deriving DecidableEq, Repr

/-- The card-scan loop: split off the fresh cards, stopping with the
`idle = 999` sentinel when `stop_on_match` hits an already-seen id. -/
def selectFresh (stopOnMatch : Bool) (seen processed : List String) :
    List RawReview → List RawReview × Bool
  | [] => ([], false)
  | c :: rest =>
    if c.id = "" ∨ c.id ∈ seen ∨ c.id ∈ processed then
      if stopOnMatch ∧ c.id ≠ "" ∧ (c.id ∈ seen ∨ c.id ∈ processed) then
        ([], true)
      else selectFresh stopOnMatch seen processed rest
    else
      let (f, s) := selectFresh stopOnMatch seen processed rest
      (c :: f, s)

/-- Process the fresh cards in order: record the id as processed, merge,
mark seen, reset the idle and attempts counters.  A raised exception
(`merge_review = none`) aborts the batch; the `while` loop's handler
bumps `attempts` and continues. -/
def processFresh (now : Int) (rnd : Nat) :
    List RawReview → SessionState → SessionState × Bool
  | [], st => (st, false)
  | raw :: rest, st =>
    let st := { st with processed := pyInsertU st.processed raw.id }
    match merge_review (alookup st.docs raw.id) raw now rnd with
    | some rec =>
      processFresh now rnd rest
        { st with
          docs := aupsert st.docs raw.id rec
          seen := pyInsertU st.seen raw.id
          idle := 0
          attempts := 0 }
    | none => ({ st with attempts := st.attempts + 1 }, true)

/-- One iteration of the `while` loop body.  The returned flag is true
when the loop `break`s (`idle >= 3`). -/
def sessionIter (stopOnMatch : Bool) (now : Int) (rnd : Nat)
    (cards : List RawReview) (st : SessionState) : SessionState × Bool :=
  if cards.isEmpty then ({ st with attempts := st.attempts + 1 }, false)
  else
    let fs := selectFresh stopOnMatch st.seen st.processed cards
    let st := if fs.2 then { st with idle := 999 } else st
    let pr := processFresh now rnd fs.1 st
    if pr.2 then (pr.1, false)
    else if 3 ≤ pr.1.idle then (pr.1, true)
    else if fs.1.isEmpty then
      ({ pr.1 with idle := pr.1.idle + 1, attempts := pr.1.attempts + 1 }, false)
    else (pr.1, false)

/-- The `while attempts < max_attempts` loop (`max_attempts = 10`), with
an explicit fuel so the model is total; the loop also stops on `break`. -/
def sessionLoop (stopOnMatch : Bool) (now : Int) (rnd : Nat)
    (cards : List RawReview) : Nat → SessionState → SessionState
  | 0, st => st
  | fuel + 1, st =>
    if st.attempts < 10 then
      match sessionIter stopOnMatch now rnd cards st with
      | (st', true) => st'
      | (st', false) => sessionLoop stopOnMatch now rnd cards fuel st'
    else st

/-! ### Predicates and spec-side definitions used by the claims -/

/-- A record in the shape the pipeline itself stores: the current-schema
keys are present (with duplicate-free dict keys and image list), the
legacy keys are absent. -/
structure WfRec (r : Rec) : Prop where
  desc : r.description.isSome = true
  descNd : ((r.description.getD []).map Prod.fst).Nodup
  rat : r.rating.isSome = true
  lik : r.likes.isSome = true
  imgs : r.user_images.isSome = true
  imgsNd : (r.user_images.getD []).Nodup
  pp : r.profile_picture.isSome = true
  own : r.owner_responses.isSome = true
  ownNd : ((r.owner_responses.getD []).map Prod.fst).Nodup
  created : r.created_date.isSome = true
  review : r.review_date.isSome = true
  texts : r.texts = none
  photoUrls : r.photo_urls = none
  profileLink : r.profile_link = none
  avatarUrl : r.avatar_url = none
  legacyDate : r.date = none


/-- Modelled from the spec's record-rewrite description, as amended by
the counterexample: an original URL with a produced mapping contributes
its custom form; a URL already in custom form is kept verbatim; a URL
with no mapping that is not in custom form is dropped; and when no
entries result at all the current list is left untouched. -/
def specRewriteImages (cfg : IHConfig) (cuMap : List (String × String))
    (origs cur : List String) : List String :=
  let entries := origs.filterMap (fun u =>
    match alookup cuMap u with
    | some c => some c
    | none => if ¬is_not_custom_url cfg u then some u else none)
  if entries.isEmpty then cur else entries


/-- A date-field value that is absent or a valid ISO string (no raw
unparsed string, no in-memory `datetime` object). -/
def isoOnlyB : Option DVal → Bool
  | none => true
  | some (.isoStr _) => true
  | some (.rawStr _) => false
  | some (.dtv _) => false

/-- A stored document the round trip can preserve exactly: non-empty id,
no legacy `date` key, date fields absent or ISO, no nested owner-response
dates. -/
def cleanRec (r : Rec) : Prop :=
  r.review_id ≠ "" ∧ r.date = none ∧
  isoOnlyB r.created_date = true ∧ isoOnlyB r.last_modified_date = true ∧
  isoOnlyB r.review_date = true ∧
  (∀ p ∈ r.owner_responses.getD [], p.2.date = none)


/-! ### Concrete inputs used in witnesses and counterexamples -/

/-- A well-formed stored record (the shape `merge_review` itself
produces), used to witness the merge claims. -/
def recW : Rec :=
  { review_id := "w1"
    author := "An Author"
    rating := some 4
    description := some [("en", "nice place")]
    likes := some 2
    user_images := some ["http://img.example/u1", "http://img.example/u2"]
    author_profile_url := some "http://profile.example/w1"
    profile_picture := some "http://avatar.example/long"
    owner_responses := some [("en", { text := "thank you", date := none })]
    created_date := some (.isoStr 50)
    review_date := some (.isoStr 60)
    last_modified_date := some (.isoStr 55) }

/-- A fragment already fully reflected in `recW`. -/
def fragW : RawReview :=
  { id := "w1"
    author := "An Author"
    rating := 3
    date := "a week ago"
    lang := "en"
    text := "nice place"
    likes := 1
    photos := ["http://img.example/u2"]
    avatar := "http://avatar.ex/short"
    owner_text := "thank you" }

/-- A Hebrew-tagged fragment whose date text parses differently under
`"he"` (3 days) than under `"en"` (2 days). -/
def fragHe : RawReview :=
  { id := "cx6", lang := "he", date := "2 days ago לפני 3 ימים" }

/-- The enrichment configuration of the C4/C5 scenarios. -/
def cfgCx : IHConfig :=
  { store_local_paths := true
    replace_urls := true
    preserve_original_urls := false }

def cfgCx5 : IHConfig :=
  { store_local_paths := true
    replace_urls := true
    preserve_original_urls := true }

/-- The download oracle of the C4/C5 scenarios: only
`http://img.example/a` is fetchable. -/
def okCx : String → Bool := fun u => u = "http://img.example/a"

def recCxA : Rec := { review_id := "r1", user_images := some ["http://img.example/a"] }

def recCxB : Rec := { review_id := "r2", user_images := some ["http://img.example/b"] }

/-- A record holding both a fetchable and an unfetchable image URL. -/
def recCxAB : Rec :=
  { review_id := "r1"
    user_images := some ["http://img.example/a", "http://img.example/b"] }

/-- A record carrying a legacy raw `date` field. -/
def recCx9 : Rec := { review_id := "rl", date := some "last Tuesday-ish" }

/-- A clean stored record for the round-trip witness. -/
def recW9 : Rec :=
  { review_id := "w9"
    description := some [("en", "fine")]
    created_date := some (.isoStr 1)
    last_modified_date := some (.isoStr 2)
    review_date := some (.isoStr 3)
    owner_responses := some [("en", { text := "ty", date := none })] }

/-- The cards and initial state of the C3 stop-on-match scenario. -/
def cardsC3 : List RawReview := [{ id := "r3" }, { id := "r1" }, { id := "r4" }]

def stC3 : SessionState := { seen := ["r1", "r2"] }

end Scraper

namespace Scraper

/-! ### Helper lemmas -/

theorem listMapSelf {α : Type} (l : List α) (f : α → α) (h : ∀ a ∈ l, f a = a) :
    l.map f = l := by
  induction l with
  | nil => rfl
  | cons a t ih =>
    simp only [List.map_cons, h a (by simp)]
    rw [ih (fun b hb => h b (by simp [hb]))]

theorem alookup_any {β : Type} (m : List (String × β)) (k : String) (v : β)
    (h : alookup m k = some v) : m.any (fun p => p.1 = k) = true := by
  unfold alookup at h
  rcases hf : m.find? (fun p => p.1 = k) with _ | p
  · rw [hf] at h; simp at h
  · have := List.find?_some hf
    have hm := List.mem_of_find?_eq_some hf
    simp only [List.any_eq_true]
    exact ⟨p, hm, this⟩

theorem aupsert_lookup_self {β : Type} (m : List (String × β)) (k : String) (v : β)
    (hnd : (m.map Prod.fst).Nodup) (h : alookup m k = some v) :
    aupsert m k v = m := by
  induction m with
  | nil => simp [alookup] at h
  | cons p t ih =>
    by_cases hpk : p.1 = k
    · have hv : p.2 = v := by
        unfold alookup at h
        rw [List.find?_cons_of_pos _ (by simpa using hpk)] at h
        simpa using h
      have hknot : ∀ q ∈ t, q.1 ≠ k := by
        intro q hq
        have := (List.nodup_cons.mp hnd).1
        intro hqk
        exact this (by rw [hpk, ← hqk]; exact List.mem_map_of_mem Prod.fst hq)
      unfold aupsert
      rw [if_pos (by simp only [List.any_cons]; simp [hpk])]
      simp only [List.map_cons, if_pos hpk]
      subst hpk
      subst hv
      rw [Prod.mk.eta]
      congr 1
      exact listMapSelf t _ (fun q hq => by rw [if_neg (hknot q hq)])
    · have ht : alookup t k = some v := by
        unfold alookup at h ⊢
        rwa [List.find?_cons_of_neg _ (by simpa using hpk)] at h
      have hnd' : (t.map Prod.fst).Nodup := (List.nodup_cons.mp hnd).2
      have iht := ih hnd' ht
      have hany : t.any (fun q => q.1 = k) = true := alookup_any t k v ht
      unfold aupsert at iht ⊢
      rw [if_pos (by simp only [List.any_cons]; simp [hany])]
      rw [if_pos hany] at iht
      simp only [List.map_cons, if_neg hpk, iht]

theorem foldl_pyInsertU_absorb (p : List String) (acc : List String)
    (h : ∀ x ∈ p, x ∈ acc) : p.foldl pyInsertU acc = acc := by
  induction p generalizing acc with
  | nil => rfl
  | cons a t ih =>
    rw [List.foldl_cons, show pyInsertU acc a = acc from by
      simp [pyInsertU, h a (by simp)]]
    exact ih acc (fun x hx => h x (by simp [hx]))

theorem foldl_pyInsertU_append (l : List String) (acc : List String)
    (hnd : l.Nodup) (hdisj : ∀ x ∈ l, x ∉ acc) :
    l.foldl pyInsertU acc = acc ++ l := by
  induction l generalizing acc with
  | nil => simp
  | cons a t ih =>
    have ha : a ∉ acc := hdisj a (by simp)
    rw [List.foldl_cons, show pyInsertU acc a = acc ++ [a] from by
      simp [pyInsertU, ha]]
    rw [ih (acc ++ [a]) (List.nodup_cons.mp hnd).2 ?_]
    · simp
    · intro x hx
      simp only [List.mem_append, List.mem_singleton]
      rintro (hxa | rfl)
      · exact hdisj x (by simp [hx]) hxa
      · exact (List.nodup_cons.mp hnd).1 hx

theorem pySetList_absorb (l p : List String) (hnd : l.Nodup)
    (hsub : ∀ x ∈ p, x ∈ l) : pySetList (l ++ p) = l := by
  unfold pySetList
  rw [List.foldl_append, foldl_pyInsertU_append l [] hnd (by simp)]
  simpa using foldl_pyInsertU_absorb p l hsub

theorem updDescription_review_date (e : Rec) (raw : RawReview) :
    (updDescription e raw).review_date = e.review_date := by
  unfold updDescription
  simp only [apply_ite Rec.review_date, ite_self]

theorem updRating_review_date (e : Rec) (raw : RawReview) :
    (updRating e raw).review_date = e.review_date := by
  unfold updRating
  simp only [apply_ite Rec.review_date, ite_self]

theorem updLikes_review_date (e : Rec) (raw : RawReview) :
    (updLikes e raw).review_date = e.review_date := by
  unfold updLikes
  simp only [apply_ite Rec.review_date, ite_self]

theorem updImages_review_date (e : Rec) (raw : RawReview) :
    (updImages e raw).review_date = e.review_date := rfl

theorem updAvatar_review_date (e : Rec) (raw : RawReview) :
    (updAvatar e raw).review_date = e.review_date := by
  unfold updAvatar
  simp only [apply_ite Rec.review_date, ite_self]

theorem updOwner_review_date (e : Rec) (raw : RawReview) :
    (updOwner e raw).review_date = e.review_date := by
  unfold updOwner
  simp only [apply_ite Rec.review_date, ite_self]

/-- The common merge section never touches `review_date`. -/
theorem mergeCommon_review_date (e : Rec) (raw : RawReview) (now : Int)
    (res : Rec) (h : mergeCommon e raw now = some res) :
    res.review_date = e.review_date := by
  unfold mergeCommon at h
  split at h
  · exact absurd h (by simp)
  · simp only [Option.some.injEq] at h
    subst h
    show (updOwner _ raw).review_date = _
    rw [updOwner_review_date, updAvatar_review_date, updImages_review_date,
      updLikes_review_date, updRating_review_date, updDescription_review_date]

theorem migrateRenames_review_date (e : Rec) :
    (migrateRenames e).review_date = e.review_date := by
  unfold migrateRenames
  simp only [apply_ite Rec.review_date, ite_self]

theorem backfillCreated_review_date (e : Rec) (now : Int) :
    (backfillCreated e now).review_date = e.review_date := by
  unfold backfillCreated
  simp only [apply_ite Rec.review_date, ite_self]

theorem delLegacyDate_review_date (e : Rec) :
    (delLegacyDate e).review_date = e.review_date := by
  unfold delLegacyDate
  simp only [apply_ite Rec.review_date, ite_self]

/-- Migration preserves a present `review_date`. -/
theorem migrateLegacy_review_date (e : Rec) (raw : RawReview) (now : Int)
    (rnd : Nat) (res : Rec) (d : DVal) (hd : e.review_date = some d)
    (h : migrateLegacy e raw now rnd = some res) :
    res.review_date = some d := by
  simp only [migrateLegacy] at h
  have h2 : (backfillCreated (migrateRenames e) now).review_date = some d := by
    rw [backfillCreated_review_date, migrateRenames_review_date, hd]
  rw [if_neg (by simp [h2])] at h
  simp only [Option.map_some', Option.some.injEq] at h
  subst h
  rw [delLegacyDate_review_date, h2]

theorem finishParse_ne_nomatch (now : Int) (d : Nat) :
    finishParse now d ≠ .nomatch := by
  unfold finishParse
  split
  · simp
  · split <;> simp

theorem finishParse_ok (now : Int) (days : Nat) (hdays : days ≤ tdMaxDays)
    (hlo : minDt ≤ now - (days : Int) * 86400)
    (hhi : now - (days : Int) * 86400 ≤ maxDt) :
    finishParse now days = .parsed (now - (days : Int) * 86400) := by
  unfold finishParse
  rw [if_neg (by omega), if_pos ⟨hlo, hhi⟩]

theorem en_nomatch_inv (s : String) (now : Int)
    (h : try_parse_date s "en" now = .nomatch) : enSearchDays s.data = none := by
  unfold try_parse_date at h
  rw [if_pos (by decide)] at h
  rcases he : enSearchDays s.data with _ | d
  · rfl
  · rw [he] at h
    exact absurd h (finishParse_ne_nomatch now d)

theorem he_nomatch_inv (s : String) (now : Int)
    (h : try_parse_date s "he" now = .nomatch) : heBranchDays s.data = none := by
  unfold try_parse_date at h
  rw [if_neg (by decide), if_pos (by decide)] at h
  rcases he : heBranchDays s.data with _ | d
  · rfl
  · rw [he] at h
    exact absurd h (finishParse_ne_nomatch now d)

theorem th_nomatch_inv (s : String) (now : Int)
    (h : try_parse_date s "th" now = .nomatch) : thSearchDays s.data = none := by
  unfold try_parse_date at h
  rw [if_neg (by decide), if_neg (by decide), if_pos (by decide)] at h
  rcases he : thSearchDays s.data with _ | d
  · rfl
  · rw [he] at h
    exact absurd h (finishParse_ne_nomatch now d)

/-! ### Claim C7 -/

/-- Claim C7, counterexample: the claim quantifies over every fixed
reference time `T`, but at `T = datetime.min` both normalizations
overflow the `datetime` range and raise instead of returning
`T - 730 days` / `T - 60 days`. -/
theorem normalize_overflow_at_min :
    parse_relative_date "2 years ago" "en" minDt 0 = none ∧
    parse_relative_date "לפני חודשיים" "he" (minDt + 50 * 86400) 0 = none := by
  decide

/-- Claim C7 (amended): for every reference time `T` for which the
730-day subtraction stays inside the `datetime` range,
`parse_relative_date("2 years ago", "en", T)` is exactly the ISO string
for `T - 730 days` and `parse_relative_date("לפני חודשיים", "he", T)` is
exactly the ISO string for `T - 60 days`; both are deterministic
functions of `T` (the `rnd` seed is irrelevant). -/
theorem normalize_examples_amended (now : Int) (rnd : Nat)
    (h1 : minDt ≤ now - 730 * 86400) (h2 : now ≤ maxDt) :
    parse_relative_date "2 years ago" "en" now rnd = some (now - 730 * 86400) ∧
    parse_relative_date "לפני חודשיים" "he" now rnd = some (now - 60 * 86400) := by
  have hcast : ((730 : Nat) : Int) = 730 := by norm_num
  have hcast60 : ((60 : Nat) : Int) = 60 := by norm_num
  constructor
  · unfold parse_relative_date
    have hsearch : enSearchDays "2 years ago".data = some 730 := by decide
    have he : try_parse_date "2 years ago" "en" now = .parsed (now - 730 * 86400) := by
      unfold try_parse_date
      rw [if_pos (by decide), hsearch]
      show finishParse now 730 = _
      rw [finishParse_ok now 730 (by decide) (by rw [hcast]; omega) (by rw [hcast]; omega), hcast]
    rw [he]
  · unfold parse_relative_date
    have hsearch : heBranchDays "לפני חודשיים".data = some 60 := by decide
    have he : try_parse_date "לפני חודשיים" "he" now = .parsed (now - 60 * 86400) := by
      unfold try_parse_date
      rw [if_neg (by decide), if_pos (by decide), hsearch]
      show finishParse now 60 = _
      rw [finishParse_ok now 60 (by decide) (by rw [hcast60]; omega) (by rw [hcast60]; omega), hcast60]
    rw [he]

/-- Witness for C7's amended theorem at `T = 0`. -/
theorem normalize_examples_amended_witness :
    parse_relative_date "2 years ago" "en" 0 0 = some (0 - 730 * 86400) ∧
    parse_relative_date "לפני חודשיים" "he" 0 0 = some (0 - 60 * 86400) :=
  normalize_examples_amended 0 0 (by decide) (by decide)

/-! ### Claim C8 -/

/-- Claim C8, counterexample: on an input no grammar matches, with the
reference time at `datetime.min`, the randomized fallback's subtraction
overflows and an exception escapes — `parse_relative_date` is not total. -/
theorem normalize_fallback_overflow :
    parse_relative_date "hello" "en" minDt 0 = none := by
  decide

/-- Claim C8 (amended): when no supported language's grammar matches and
the reference time leaves room for the up-to-365-day random subtraction
inside the `datetime` range, `parse_relative_date` still returns a
timestamp: the reference time minus a whole number of days between 1 and
365 inclusive — never the unparsed input string. -/
theorem normalize_fallback_amended (s lang : String) (now : Int) (rnd : Nat)
    (hen : try_parse_date s "en" now = .nomatch)
    (hhe : try_parse_date s "he" now = .nomatch)
    (hth : try_parse_date s "th" now = .nomatch)
    (hlo : minDt + 365 * 86400 ≤ now) (hhi : now ≤ maxDt) :
    ∃ d : Nat, 1 ≤ d ∧ d ≤ 365 ∧
      parse_relative_date s lang now rnd = some (now - (d : Int) * 86400) := by
  have hmod : rnd % 365 < 365 := Nat.mod_lt rnd (by norm_num)
  refine ⟨1 + rnd % 365, by omega, by omega, ?_⟩
  have hself : try_parse_date s lang now = .nomatch := by
    unfold try_parse_date
    by_cases h1 : pyLower lang = "en"
    · rw [if_pos h1, en_nomatch_inv s now hen]
    · rw [if_neg h1]
      by_cases h2 : pyLower lang = "he"
      · rw [if_pos h2, he_nomatch_inv s now hhe]
      · rw [if_neg h2]
        by_cases h3 : pyLower lang = "th"
        · rw [if_pos h3, th_nomatch_inv s now hth]
        · rw [if_neg h3]
  have halt : ∀ ls : List String,
      (∀ l ∈ ls, l = "en" ∨ l = "he" ∨ l = "th") →
      tryAltLangs ls s now = .nomatch := by
    intro ls hls
    induction ls with
    | nil => rfl
    | cons a t ih =>
      have ha := hls a (by simp)
      unfold tryAltLangs
      rcases ha with rfl | rfl | rfl
      · rw [hen]
        exact ih (fun l hl => hls l (by simp [hl]))
      · rw [hhe]
        exact ih (fun l hl => hls l (by simp [hl]))
      · rw [hth]
        exact ih (fun l hl => hls l (by simp [hl]))
  unfold parse_relative_date
  rw [hself]
  rw [halt _ (fun l hl => by
    have := List.mem_of_mem_filter hl
    simpa using this)]
  have hd365 : (1 + rnd % 365 : Nat) ≤ 365 := by omega
  have hdcast : ((1 + rnd % 365 : Nat) : Int) ≤ 365 := by exact_mod_cast hd365
  have hdpos : (1 : Int) ≤ ((1 + rnd % 365 : Nat) : Int) := by exact_mod_cast Nat.le_add_right 1 (rnd % 365)
  simp only [minDt, maxDt] at hlo hhi
  rw [if_pos (by constructor <;> [simp only [minDt]; simp only [maxDt]] <;> nlinarith)]

/-- Witness for C8's amended theorem on the unparseable input `"hello"`. -/
theorem normalize_fallback_amended_witness :
    ∃ d : Nat, 1 ≤ d ∧ d ≤ 365 ∧
      parse_relative_date "hello" "en" 0 0 = some (0 - (d : Int) * 86400) :=
  normalize_fallback_amended "hello" "en" 0 0 (by decide) (by decide) (by decide)
    (by decide) (by decide)

/-! ### Claim C2 -/

/-- Claim C2: `review_date` is assigned exactly once.  The merge that
creates a record sets it from the first fragment's date text, and every
later `merge_review` call on a record whose `review_date` is present
returns it unchanged, whatever raw date string the later fragment
carries. -/
theorem review_date_set_once (r : Rec) (f g : RawReview)
    (now now2 : Int) (rnd rnd2 : Nat) (d : DVal) (res res2 : Rec) :
    (r.review_date = some d → merge_review (some r) f now rnd = some res →
      res.review_date = some d) ∧
    (merge_review none g now2 rnd2 = some res2 →
      ∃ t, parse_relative_date g.date "en" now2 rnd2 = some t ∧
        res2.review_date = some (.isoStr t)) := by
  constructor
  · intro hd h
    unfold merge_review at h
    dsimp only at h
    rcases hm : migrateLegacy r f now rnd with _ | e
    · rw [hm] at h
      exact absurd h (by simp)
    · rw [hm] at h
      simp only [Option.some_bind] at h
      have h1 := migrateLegacy_review_date r f now rnd e d hd hm
      have h2 := mergeCommon_review_date e f now res h
      rw [h2, h1]
  · intro h
    unfold merge_review newRecordOf at h
    dsimp only at h
    rcases hp : parse_relative_date g.date "en" now2 rnd2 with _ | t
    · rw [hp] at h
      exact absurd h (by simp)
    · rw [hp] at h
      simp only [Option.map_some', Option.some_bind] at h
      refine ⟨t, rfl, ?_⟩
      have := mergeCommon_review_date _ g now2 res2 h
      rw [this]

/-- Witness for C2 at a concrete record and fragments. -/
theorem review_date_set_once_witness :
    (merge_review (some recW) fragW 70 0).map (fun r => r.review_date) =
      some (some (DVal.isoStr 60)) ∧
    (merge_review none fragW 0 0).map (fun r => r.review_date) =
      some (some (DVal.isoStr (-604800))) := by
  constructor
  · rcases hres : merge_review (some recW) fragW 70 0 with _ | res
    · exact absurd hres (by decide)
    · rw [Option.map_some']
      rw [(review_date_set_once recW fragW fragW 70 0 0 0
        (.isoStr 60) res res).1 (by decide) hres]
  · rcases hres : merge_review none fragW 0 0 with _ | res
    · exact absurd hres (by decide)
    · rw [Option.map_some']
      obtain ⟨t, ht, hrv⟩ := (review_date_set_once recW fragW fragW 70 0 0 0
        (.isoStr 60) res res).2 hres
      rw [hrv]
      have hp : parse_relative_date fragW.date "en" 0 0 =
          some (-604800 : Int) := by decide
      rw [hp] at ht
      rw [Option.some_inj.mp ht]

/-! ### Claim C6 -/

/-- Claim C6, counterexample: the spec says a new record's `review_date`
is normalized with the fragment's language hint as the primary parse
language, but `merge_review` always passes `RAW_LANG = "en"`.  On a
fragment tagged `"he"` whose date text reads as 2 days under English and
3 days under Hebrew, the stored date is the English-primary result, not
the hint-primary one. -/
theorem merge_ignores_language_hint :
    (merge_review none fragHe 0 0).map (fun r => r.review_date) =
      some (some (.isoStr (-172800))) ∧
    parse_relative_date fragHe.date fragHe.lang 0 0 = some (-259200) ∧
    (merge_review none fragHe 0 0).map (fun r => r.review_date) ≠
      some ((parse_relative_date fragHe.date fragHe.lang 0 0).map DVal.isoStr) := by
  refine ⟨by decide, by decide, ?_⟩
  decide

/-- Claim C6 (amended): `merge_review(null, f)` sets the new record's
`review_date` to `parse_relative_date(f.date, "en")` — English is always
the primary parse language, regardless of the fragment's language hint
(the hint language is reached only through the fallback chain). -/
theorem merge_review_date_english_primary (f : RawReview) (now : Int)
    (rnd : Nat) (res : Rec) (h : merge_review none f now rnd = some res) :
    ∃ t, parse_relative_date f.date "en" now rnd = some t ∧
      res.review_date = some (.isoStr t) := by
  unfold merge_review newRecordOf at h
  dsimp only at h
  rcases hp : parse_relative_date f.date "en" now rnd with _ | t
  · rw [hp] at h
    exact absurd h (by simp)
  · rw [hp] at h
    simp only [Option.map_some', Option.some_bind] at h
    refine ⟨t, rfl, ?_⟩
    have := mergeCommon_review_date _ f now res h
    rw [this]

/-- Witness for C6's amended theorem on the Hebrew-tagged fragment. -/
theorem merge_review_date_english_primary_witness :
    (merge_review none fragHe 5 3).map (fun r => r.review_date) =
      some (some (DVal.isoStr (5 - 172800))) := by
  rcases hres : merge_review none fragHe 5 3 with _ | res
  · exact absurd hres (by decide)
  · rw [Option.map_some']
    obtain ⟨t, ht, hrv⟩ := merge_review_date_english_primary fragHe 5 3 res hres
    rw [hrv]
    have hp : parse_relative_date fragHe.date "en" 5 3 =
        some (5 - 172800 : Int) := by decide
    rw [hp] at ht
    rw [Option.some_inj.mp ht]

/-! ### Claim C1 -/

set_option maxHeartbeats 1600000 in
/-- Claim C1: for a well-formed record `r` and a fragment `f` already
fully reflected in `r` (body text stored under `f`'s language,
rating/likes not exceeding `r`'s with a valid nonnegative rating, photo
URLs a subset of `r`'s images, avatar not longer than `r`'s profile
picture, owner reply stored under its detected language),
`merge_review(r, f)` returns `r` with only `last_modified_date` advanced
to the merge time. -/
theorem merge_review_idempotent (r : Rec) (f : RawReview) (now : Int) (rnd : Nat)
    (hwf : WfRec r)
    (hrat0 : 0 ≤ f.rating)
    (hrat : f.rating ≤ r.rating.getD 0)
    (hlik : f.likes ≤ r.likes.getD 0)
    (htext : f.text ≠ "" → alookup (r.description.getD []) f.lang = some f.text)
    (hph : ∀ p ∈ f.photos, p ∈ r.user_images.getD [])
    (hav : f.avatar.length ≤ (r.profile_picture.getD "").length)
    (hown : f.owner_text ≠ "" →
      alookup (r.owner_responses.getD []) (detect_lang f.owner_text) =
        some { text := f.owner_text, date := none }) :
    merge_review (some r) f now rnd =
      some { r with last_modified_date := some (.isoStr now) } := by
  obtain ⟨dm, hdm⟩ := Option.isSome_iff_exists.mp hwf.desc
  obtain ⟨q, hq⟩ := Option.isSome_iff_exists.mp hwf.rat
  obtain ⟨lk, hlk⟩ := Option.isSome_iff_exists.mp hwf.lik
  obtain ⟨ui, hui⟩ := Option.isSome_iff_exists.mp hwf.imgs
  obtain ⟨pp, hpp⟩ := Option.isSome_iff_exists.mp hwf.pp
  obtain ⟨om, hom⟩ := Option.isSome_iff_exists.mp hwf.own
  have hmr : migrateRenames r = r := by
    unfold migrateRenames
    simp [hwf.texts, hwf.photoUrls, hwf.profileLink, hwf.avatarUrl]
  have hbc : backfillCreated r now = r := by
    unfold backfillCreated
    rw [if_neg (by simp [Option.isNone_iff_eq_none]; exact
      Option.isSome_iff_ne_none.mp hwf.created)]
  have hdd : delLegacyDate r = r := by
    unfold delLegacyDate
    rw [if_neg (by simp [hwf.legacyDate])]
  have hmig : migrateLegacy r f now rnd = some r := by
    unfold migrateLegacy
    rw [hmr, hbc]
    dsimp only
    rw [if_neg (by simp [Option.isNone_iff_eq_none]; exact
      Option.isSome_iff_ne_none.mp hwf.review)]
    simp [hdd]
  have hstep1 : updDescription r f = r := by
    unfold updDescription
    by_cases htxt : f.text = ""
    · rw [if_neg (by simp [htxt])]
    · rw [if_pos htxt]
      rw [aupsert_lookup_self (r.description.getD []) f.lang f.text hwf.descNd
        (htext htxt)]
      rw [show some (r.description.getD []) = r.description from by rw [hdm]; rfl]
  have hstep2 : updRating r f = r := by
    unfold updRating
    by_cases hrt : recRatingTruthy r
    · rw [if_neg (by simp [hrt])]
    · rw [if_pos (by simp [hrt])]
      have hq0 : q = 0 := by
        unfold recRatingTruthy at hrt
        rw [hq] at hrt
        simpa using hrt
      have hf0 : f.rating = 0 := by
        rw [hq, hq0] at hrat
        simp only [Option.getD_some] at hrat
        exact le_antisymm hrat hrat0
      rw [hf0, ← hq0, ← hq]
  have hstep3 : updLikes r f = r := by
    unfold updLikes
    rw [if_neg (by omega)]
  have hstep4 : updImages r f = r := by
    unfold updImages
    rw [pySetList_absorb (r.user_images.getD []) f.photos hwf.imgsNd hph]
    rw [show some (r.user_images.getD []) = r.user_images from by rw [hui]; rfl]
  have hstep5 : updAvatar r f = r := by
    unfold updAvatar
    rw [if_neg ?_]
    by_cases hava : f.avatar = ""
    · simp [hava]
    · rintro ⟨-, hbad | hlt⟩
      · unfold recPpTruthy at hbad
        rw [hpp] at hbad
        have hpp0 : pp = "" := by simpa using hbad
        rw [hpp, hpp0] at hav
        have hlen : f.avatar.length = 0 := Nat.le_zero.mp (by simpa using hav)
        apply hava
        cases hfa : f.avatar with
        | mk l =>
          rw [hfa] at hlen
          cases l with
          | nil => rfl
          | cons a tl => exact absurd hlen (by simp [String.length])
      · exact absurd hav (by omega)
  have hstep6 : updOwner r f = r := by
    unfold updOwner
    by_cases hot : f.owner_text = ""
    · rw [if_neg (by simp [hot])]
    · rw [if_pos hot]
      dsimp only
      rw [aupsert_lookup_self (r.owner_responses.getD []) (detect_lang f.owner_text)
        { text := f.owner_text, date := none } hwf.ownNd (hown hot)]
      rw [show some (r.owner_responses.getD []) = r.owner_responses from by rw [hom]; rfl]
  unfold merge_review
  dsimp only
  rw [hmig]
  simp only [Option.some_bind]
  unfold mergeCommon
  rw [if_neg (by rintro ⟨-, hbad⟩; rw [hdm] at hbad; simp at hbad)]
  rw [hstep1, hstep2, hstep3, hstep4, hstep5, hstep6]

/-! ### Claim C4 -/

/-- Claim C4: running `download_all_images` twice is not idempotent.
With `store_local_paths` and `replace_urls` on and
`preserve_original_urls` off, the first pass stores
`local_images = ["a.jpg"]` for `r1` and rewrites its image URL to the
custom form; the second pass, looking the custom URL up in the
filename map, resets `local_images` to `[]` — the record map changes
again on the second application. -/
theorem enrich_second_pass_clears_local_images :
    (download_all_images cfgCx okCx [] [("r1", recCxA), ("r2", recCxB)]).1.map
        (fun p => (p.1, p.2.local_images)) =
      [("r1", some ["a.jpg"]), ("r2", some [])] ∧
    ((download_all_images cfgCx okCx
        (download_all_images cfgCx okCx [] [("r1", recCxA), ("r2", recCxB)]).2
        (download_all_images cfgCx okCx [] [("r1", recCxA), ("r2", recCxB)]).1).1.map
        (fun p => (p.1, p.2.local_images)) =
      [("r1", some []), ("r2", some [])]) ∧
    (download_all_images cfgCx okCx
        (download_all_images cfgCx okCx [] [("r1", recCxA), ("r2", recCxB)]).2
        (download_all_images cfgCx okCx [] [("r1", recCxA), ("r2", recCxB)]).1).1 ≠
      (download_all_images cfgCx okCx [] [("r1", recCxA), ("r2", recCxB)]).1 := by
  refine ⟨by decide, by decide, by decide⟩

/-! ### Claim C5 -/

/-- Claim C5, counterexample: with URL replacement enabled, a URL whose
download failed (so no custom-URL mapping was produced) is removed from
the rewritten `user_images`, not left untouched: `r1` starts with two
image URLs, only the first is fetchable, and the rewritten list has a
single entry — `http://img.example/b` is gone. -/
theorem replace_urls_drops_unmapped_url :
    (download_all_images cfgCx5 okCx [] [("r1", recCxAB)]).1.map
        (fun p => (p.1, p.2.user_images)) =
      [("r1", some ["https://mycustomurl.com/reviews/a.jpg"])] ∧
    "http://img.example/b" ∈ recCxAB.user_images.getD [] := by
  refine ⟨by decide, by decide⟩

theorem iteFilterNil (cur fm : List String) :
    (if fm ≠ [] then some fm else some cur) =
      some (if fm.isEmpty then cur else fm) := by
  cases fm <;> simp

theorem rewriteProfilePart_user_images (cfg : IHConfig)
    (fnMap cuMap : List (String × String)) (ppo : String) (r : Rec) :
    (rewriteProfilePart cfg fnMap cuMap ppo r).user_images = r.user_images := by
  unfold rewriteProfilePart
  repeat' first
  | split
  | dsimp only

/-- Claim C5 (amended): in the record-rewrite phase with `replace_urls`
enabled, the rewritten `user_images` is exactly `specRewriteImages`
applied to the original-URL lookup list — mapped URLs become custom
URLs, already-custom URLs survive, unmapped source URLs are dropped,
and a record none of whose URLs yields an entry keeps its list
untouched. -/
theorem rewrite_images_amended (cfg : IHConfig)
    (fnMap cuMap : List (String × String)) (r : Rec) (cur : List String)
    (hrep : cfg.replace_urls = true) (hcur : r.user_images = some cur) :
    (rewriteReview cfg fnMap cuMap r).user_images =
      some (specRewriteImages cfg cuMap (userImagesOriginalOf r) cur) := by
  unfold rewriteReview
  rw [rewriteProfilePart_user_images]
  unfold rewriteImagesPart specRewriteImages
  rw [hcur]
  dsimp only
  rw [if_pos hrep]
  simp only [apply_ite Rec.user_images, ite_self, hcur]
  exact iteFilterNil cur _

/-- Witness for C5's amended theorem on the two-URL record. -/
theorem rewrite_images_amended_witness :
    (rewriteReview cfgCx5 [("http://img.example/a", "a.jpg")]
        [("http://img.example/a", "https://mycustomurl.com/reviews/a.jpg")]
        recCxAB).user_images =
      some (specRewriteImages cfgCx5
        [("http://img.example/a", "https://mycustomurl.com/reviews/a.jpg")]
        (userImagesOriginalOf recCxAB) (recCxAB.user_images.getD [])) :=
  rewrite_images_amended cfgCx5 [("http://img.example/a", "a.jpg")]
    [("http://img.example/a", "https://mycustomurl.com/reviews/a.jpg")]
    recCxAB (recCxAB.user_images.getD []) (by decide) (by decide)

/-! ### Claim C3 -/

theorem sessionLoop_succ (stopOnMatch : Bool) (now : Int) (rnd : Nat)
    (cards : List RawReview) (fuel : Nat) (st : SessionState) :
    sessionLoop stopOnMatch now rnd cards (fuel + 1) st =
      if st.attempts < 10 then
        match sessionIter stopOnMatch now rnd cards st with
        | (st', true) => st'
        | (st', false) => sessionLoop stopOnMatch now rnd cards fuel st'
      else st := rfl

/-- Merging a fresh id-only fragment succeeds whenever the reference
time leaves room for the random-fallback date. -/
theorem merge_empty_succeeds (rid : String) (now : Int) (rnd : Nat)
    (h1 : minDt + 365 * 86400 ≤ now) (h2 : now ≤ maxDt) :
    ∃ rec, merge_review none { id := rid } now rnd = some rec := by
  have hmod : rnd % 365 < 365 := Nat.mod_lt rnd (by norm_num)
  have hd365 : ((1 + rnd % 365 : Nat) : Int) ≤ 365 := by exact_mod_cast (by omega : (1 + rnd % 365 : Nat) ≤ 365)
  have hd1 : (1 : Int) ≤ ((1 + rnd % 365 : Nat) : Int) := by exact_mod_cast Nat.le_add_right 1 (rnd % 365)
  have hp : parse_relative_date "" "en" now rnd =
      some (now - ((1 + rnd % 365 : Nat) : Int) * 86400) := by
    unfold parse_relative_date
    rw [show try_parse_date "" "en" now = .nomatch from rfl]
    rw [show tryAltLangs (["en", "he", "th"].filter
      (fun l => l ≠ pyLower "en")) "" now = .nomatch from rfl]
    dsimp only
    rw [if_pos ?_]
    constructor
    · have : ((1 + rnd % 365 : Nat) : Int) * 86400 ≤ 365 * 86400 := by nlinarith
      omega
    · have : (1 : Int) * 86400 ≤ ((1 + rnd % 365 : Nat) : Int) * 86400 := by nlinarith
      omega
  have hsome : (merge_review none { id := rid } now rnd).isSome = true := by
    unfold merge_review newRecordOf
    dsimp only
    rw [hp]
    rfl
  exact Option.isSome_iff_exists.mp hsome

/-- Claim C3: with stop-on-match enabled, SeenSet `{"r1","r2"}` and the
incoming cards `["r3","r1","r4"]`, the collection loop merges and
records `r3`, then, upon meeting the already-seen `r1`, halts without
ever processing `r4` — for any remaining fuel, the loop's final state is
the one reached after two iterations. -/
theorem stop_on_match_scenario (now : Int) (rnd : Nat) (k : Nat)
    (h1 : minDt + 365 * 86400 ≤ now) (h2 : now ≤ maxDt) :
    alookup (sessionLoop true now rnd cardsC3 (k + 2) stC3).docs "r3" =
      merge_review none { id := "r3" } now rnd ∧
    "r3" ∈ (sessionLoop true now rnd cardsC3 (k + 2) stC3).seen ∧
    alookup (sessionLoop true now rnd cardsC3 (k + 2) stC3).docs "r4" = none ∧
    "r4" ∉ (sessionLoop true now rnd cardsC3 (k + 2) stC3).seen ∧
    "r4" ∉ (sessionLoop true now rnd cardsC3 (k + 2) stC3).processed ∧
    sessionLoop true now rnd cardsC3 (k + 2) stC3 =
      sessionLoop true now rnd cardsC3 2 stC3 := by
  obtain ⟨rec, hrec⟩ := merge_empty_succeeds "r3" now rnd h1 h2
  have hsel1 : selectFresh true ["r1", "r2"] []
      [{ id := "r3" }, { id := "r1" }, { id := "r4" }] =
      ([({ id := "r3" } : RawReview)], true) := by decide
  have hsel2 : selectFresh true ["r1", "r2", "r3"] ["r3"]
      [{ id := "r3" }, { id := "r1" }, { id := "r4" }] = ([], true) := by decide
  have hiter1 : sessionIter true now rnd cardsC3 stC3 =
      ({ docs := [("r3", rec)], seen := ["r1", "r2", "r3"], processed := ["r3"],
         idle := 0, attempts := 0 }, false) := by
    unfold sessionIter
    dsimp only [stC3, cardsC3]
    rw [show ([{ id := "r3" }, { id := "r1" }, { id := "r4" }] :
      List RawReview).isEmpty = false from rfl]
    rw [if_neg (by decide)]
    rw [hsel1]
    dsimp only
    rw [if_pos (show (true : Bool) = true from rfl)]
    unfold processFresh
    dsimp only
    rw [show (alookup ([] : List (String × Rec)) "r3") = none from rfl]
    rw [hrec]
    dsimp only
    unfold processFresh
    dsimp only
    rw [if_neg (by decide), if_neg (by decide), if_neg (by decide)]
    rfl
  have hiter2 : sessionIter true now rnd cardsC3
      { docs := [("r3", rec)], seen := ["r1", "r2", "r3"], processed := ["r3"],
        idle := 0, attempts := 0 } =
      ({ docs := [("r3", rec)], seen := ["r1", "r2", "r3"], processed := ["r3"],
         idle := 999, attempts := 0 }, true) := by
    unfold sessionIter
    dsimp only [cardsC3]
    rw [show ([{ id := "r3" }, { id := "r1" }, { id := "r4" }] :
      List RawReview).isEmpty = false from rfl]
    rw [if_neg (by decide)]
    rw [hsel2]
    dsimp only
    rw [if_pos (show (true : Bool) = true from rfl)]
    unfold processFresh
    dsimp only
    rw [if_neg (by decide), if_pos (by decide)]
  have hloop : ∀ m : Nat, sessionLoop true now rnd cardsC3 (m + 2) stC3 =
      { docs := [("r3", rec)], seen := ["r1", "r2", "r3"], processed := ["r3"],
        idle := 999, attempts := 0 } := by
    intro m
    rw [show m + 2 = (m + 1) + 1 from rfl, sessionLoop_succ,
      if_pos (show stC3.attempts < 10 from by decide), hiter1]
    dsimp only
    rw [sessionLoop_succ, if_pos (show (0 : Nat) < 10 from by decide), hiter2]
  have hfin := hloop k
  have hfin2 : sessionLoop true now rnd cardsC3 2 stC3 =
      { docs := [("r3", rec)], seen := ["r1", "r2", "r3"], processed := ["r3"],
        idle := 999, attempts := 0 } := hloop 0
  rw [hfin, hfin2]
  refine ⟨?_, ?_, ?_, ?_, ?_, rfl⟩
  · rw [hrec]
    rfl
  · show "r3" ∈ ["r1", "r2", "r3"]
    decide
  · rfl
  · show "r4" ∉ ["r1", "r2", "r3"]
    decide
  · show "r4" ∉ ["r3"]
    decide

/-! ### Claim C9 -/

theorem listMapCongr {α β : Type} (l : List α) (f g : α → β)
    (h : ∀ a ∈ l, f a = g a) : l.map f = l.map g := by
  induction l with
  | nil => rfl
  | cons a tl ih =>
    simp only [List.map_cons, h a (by simp)]
    rw [ih (fun b hb => h b (by simp [hb]))]

theorem filterMapSomeSelf {α : Type} (l : List α) (f : α → Option α)
    (h : ∀ a ∈ l, f a = some a) : l.filterMap f = l := by
  induction l with
  | nil => rfl
  | cons a tl ih =>
    rw [List.filterMap_cons, h a (by simp)]
    rw [ih (fun b hb => h b (by simp [hb]))]

theorem dtFieldToIso_isoOnly (v : Option DVal) (hv : isoOnlyB v = true) :
    dtFieldToIso v = v := by
  match v with
  | none => rfl
  | some (.isoStr t) => rfl
  | some (.rawStr s) => simp [isoOnlyB] at hv
  | some (.dtv t) => simp [isoOnlyB] at hv

theorem ownerMapSelf (r : Rec)
    (hor : ∀ p ∈ r.owner_responses.getD [], p.2.date = none) :
    r.owner_responses.map
        (fun m => m.map (fun p => (p.1, { p.2 with date := none }))) =
      r.owner_responses := by
  rcases ho : r.owner_responses with _ | m
  · rfl
  · simp only [Option.map_some']
    congr 1
    apply listMapSelf
    intro p hp
    have hdp : p.2.date = none := by
      apply hor
      rw [ho]
      simpa using hp
    rw [← hdp, Prod.mk.eta]

theorem recDtToIso_clean (r : Rec) (h : cleanRec r) : recDtToIso r = r := by
  obtain ⟨-, -, hc, hl, hrv, -⟩ := h
  unfold recDtToIso
  rw [dtFieldToIso_isoOnly _ hc, dtFieldToIso_isoOnly _ hl,
    dtFieldToIso_isoOnly _ hrv]

/-- A clean record passes through date conversion plus the
datetime-to-ISO sweep unchanged. -/
theorem clean_convert_roundtrip (r : Rec) (now : Int) (rnd : Nat)
    (h : cleanRec r) :
    recDtToIso (convert_dates_in_document r now rnd) = r := by
  obtain ⟨hid, hdate, hc, hl, hrv, hor⟩ := h
  unfold convert_dates_in_document
  rw [hdate]
  dsimp only
  have hconv : ∀ (v : Option DVal), isoOnlyB v = true →
      dtFieldToIso (convertDateField (firstDescLang r) now rnd v) = v := by
    intro v hv
    match v with
    | none => rfl
    | some (.isoStr t) => rfl
    | some (.rawStr s) => simp [isoOnlyB] at hv
    | some (.dtv t) => simp [isoOnlyB] at hv
  unfold recDtToIso
  dsimp only
  rw [hconv _ hc, hconv _ hl, hconv _ hrv, ownerMapSelf r hor]

theorem foldl_aupsert_append {β : Type} (l : List (String × β)) :
    ∀ acc : List (String × β), (l.map Prod.fst).Nodup →
    (∀ p ∈ l, acc.any (fun q => q.1 = p.1) = false) →
    l.foldl (fun a p => aupsert a p.1 p.2) acc = acc ++ l := by
  induction l with
  | nil => intro acc _ _; simp
  | cons p tl ih =>
    intro acc hnd hdisj
    rw [List.foldl_cons]
    have hstep : aupsert acc p.1 p.2 = acc ++ [p] := by
      unfold aupsert
      rw [if_neg (by simp [hdisj p (by simp)])]
    rw [hstep, ih (acc ++ [p]) (List.nodup_cons.mp hnd).2 ?_]
    · simp
    · intro q hq
      rw [List.any_append]
      have h1 : acc.any (fun x => x.1 = q.1) = false := hdisj q (by simp [hq])
      have h2 : [p].any (fun x => x.1 = q.1) = false := by
        simp only [List.any_cons, List.any_nil, Bool.or_false]
        have := (List.nodup_cons.mp hnd).1
        simp only [decide_eq_false_iff_not]
        intro hpq
        exact this (by rw [hpq]; exact List.mem_map_of_mem Prod.fst hq)
      rw [h1, h2]
      rfl

/-- Claim C9, counterexample: a record carrying a legacy raw `date`
field does not round-trip — `save_json_docs` (with default
`convert_dates`) pops the `date` key and backfills `review_date` from
it, so keys are removed and added. -/
theorem roundtrip_drops_legacy_date :
    load_json_docs (save_json_docs {} (fun _ => false) [] 0 0
        [("rl", recCx9)]) ≠ [("rl", recCx9)] ∧
    (alookup (load_json_docs (save_json_docs {} (fun _ => false) [] 0 0
        [("rl", recCx9)])) "rl").map (fun d => d.date) = some none ∧
    recCx9.date = some "last Tuesday-ish" := by
  refine ⟨by decide, by decide, by decide⟩

/-- Claim C9 (amended): for a configuration with no custom parameters
and image downloading off, and an identity-indexed map of clean records
(non-empty ids matching their keys, no legacy `date` keys, date fields
stored as ISO strings), writing with `save_json_docs` and reading with
`load_json_docs` reproduces the map exactly — no keys added or removed. -/
theorem json_roundtrip_amended (cfg : SCfg) (ok : String → Bool)
    (files : FileSys) (now : Int) (rnd : Nat) (docs : List (String × Rec))
    (hcp : cfg.custom_params = []) (hdi : cfg.download_images = false)
    (hnd : (docs.map Prod.fst).Nodup)
    (hrec : ∀ p ∈ docs, p.1 = p.2.review_id ∧ cleanRec p.2) :
    load_json_docs (save_json_docs cfg ok files now rnd docs) = docs := by
  have hsave : save_json_docs cfg ok files now rnd docs =
      docs.map (fun p => p.2) := by
    unfold save_json_docs
    dsimp only
    rw [hdi, hcp]
    rw [if_neg (show ¬(false = true) from by simp)]
    rw [if_neg (show ¬(([] : List (String × String)) ≠ []) from by simp)]
    by_cases hcv : cfg.convert_dates
    · rw [if_pos hcv, List.map_map]
      apply listMapCongr
      intro p hp
      simp only [Function.comp_apply]
      exact clean_convert_roundtrip p.2 now rnd (hrec p hp).2
    · rw [if_neg hcv]
      apply listMapCongr
      intro p hp
      exact recDtToIso_clean p.2 (hrec p hp).2
  rw [hsave]
  unfold load_json_docs
  have hfm : (docs.map (fun p => p.2)).filterMap (fun d =>
      if d.review_id ≠ "" then some (d.review_id, d) else none) = docs := by
    rw [List.filterMap_map]
    apply filterMapSomeSelf
    intro p hp
    obtain ⟨hkey, hclean⟩ := hrec p hp
    simp only [Function.comp_apply]
    rw [if_pos hclean.1, ← hkey]
  rw [hfm]
  have := foldl_aupsert_append docs [] hnd (by simp)
  simpa using this

/-- Witness for C3's theorem at reference time 0. -/
theorem stop_on_match_scenario_witness :
    alookup (sessionLoop true 0 0 cardsC3 2 stC3).docs "r3" =
      merge_review none { id := "r3" } 0 0 ∧
    "r3" ∈ (sessionLoop true 0 0 cardsC3 2 stC3).seen ∧
    alookup (sessionLoop true 0 0 cardsC3 2 stC3).docs "r4" = none ∧
    "r4" ∉ (sessionLoop true 0 0 cardsC3 2 stC3).seen ∧
    "r4" ∉ (sessionLoop true 0 0 cardsC3 2 stC3).processed ∧
    sessionLoop true 0 0 cardsC3 2 stC3 = sessionLoop true 0 0 cardsC3 2 stC3 :=
  stop_on_match_scenario 0 0 0 (by decide) (by decide)

/-- Witness for C9's amended theorem on a one-record map. -/
theorem json_roundtrip_amended_witness :
    load_json_docs (save_json_docs {} (fun _ => false) [] 0 0
      [("w9", recW9)]) = [("w9", recW9)] :=
  json_roundtrip_amended {} (fun _ => false) [] 0 0 [("w9", recW9)]
    (by decide) (by decide) (by decide)
    (by intro p hp
        simp only [List.mem_singleton] at hp
        subst hp
        exact ⟨by decide, by decide, by decide, by decide, by decide, by decide⟩)

/-! ### Claim C10 -/

theorem splitlinesAux_nofree (cs : List Char)
    (h : ∀ c ∈ cs, isLineBoundary c = false) (acc : List Char) :
    splitlinesAux acc false cs =
      if acc = [] ∧ cs = [] then [] else [acc.reverse ++ cs] := by
  induction cs generalizing acc with
  | nil => cases acc <;> simp [splitlinesAux]
  | cons c r ih =>
    have hc : isLineBoundary c = false := h c (by simp)
    have hcr : ¬c = '\r' := by
      intro hh
      rw [hh] at hc
      exact absurd hc (by decide)
    rw [splitlinesAux, if_neg (by simp), if_neg hcr, if_neg (by simp [hc])]
    rw [ih (fun d hd => h d (by simp [hd])) (c :: acc)]
    rw [if_neg (by simp)]
    rw [if_neg (by simp)]
    simp

theorem splitlinesAux_break (x : List Char)
    (hx : ∀ c ∈ x, isLineBoundary c = false) (s : List Char) (acc : List Char) :
    splitlinesAux acc false (x ++ '\n' :: s) =
      (acc.reverse ++ x) :: splitlinesAux [] false s := by
  induction x generalizing acc with
  | nil =>
    rw [List.nil_append, splitlinesAux, if_neg (by simp), if_neg (by decide),
      if_pos (by decide)]
    simp
  | cons c r ih =>
    have hc : isLineBoundary c = false := hx c (by simp)
    have hcr : ¬c = '\r' := by
      intro hh
      rw [hh] at hc
      exact absurd hc (by decide)
    rw [List.cons_append, splitlinesAux, if_neg (by simp), if_neg hcr,
      if_neg (by simp [hc])]
    rw [ih (fun d hd => hx d (by simp [hd])) (c :: acc)]
    simp

theorem seen_roundtrip_list (l : List String)
    (h : ∀ s ∈ l, s ≠ "" ∧ ∀ c ∈ s.data, isLineBoundary c = false) :
    load_seen (save_seen l) = l := by
  induction l with
  | nil => rfl
  | cons x ys ih =>
    obtain ⟨hne, hfree⟩ := h x (by simp)
    have hxdata : ¬x.data = [] := by
      intro hz
      apply hne
      cases x with
      | mk d => rw [show d = [] from hz]
    cases ys with
    | nil =>
      show (splitlinesAux [] false (pyJoinNl [x]).data).map String.mk = [x]
      rw [show pyJoinNl [x] = x from rfl]
      rw [splitlinesAux_nofree x.data hfree []]
      rw [if_neg (by simp [hxdata])]
      simp
    | cons y zs =>
      show (splitlinesAux [] false (pyJoinNl (x :: y :: zs)).data).map String.mk
        = x :: y :: zs
      have hjoin : pyJoinNl (x :: y :: zs) = x ++ "\n" ++ pyJoinNl (y :: zs) := rfl
      have hdata : (x ++ "\n" ++ pyJoinNl (y :: zs)).data
          = x.data ++ '\n' :: (pyJoinNl (y :: zs)).data := by
        simp [String.data_append]
      have ih2 : List.map String.mk
          (splitlinesAux [] false (pyJoinNl (y :: zs)).data) = y :: zs :=
        ih (fun s hs => h s (by simp [hs]))
      rw [hjoin, hdata, splitlinesAux_break x.data hfree _ []]
      simp only [List.reverse_nil, List.nil_append, List.map_cons]
      rw [ih2]

/-- Claim C10, counterexample: an identity containing a carriage return
has no newline character, yet the round trip splits it in two —
`str.splitlines` breaks on `\r` (and the other Unicode line boundaries),
not just on `\n`. -/
theorem seen_roundtrip_cr_breaks :
    (load_seen (save_seen ["a\rb"])).toFinset ≠
      (["a\rb"] : List String).toFinset := by
  decide

/-- Claim C10 (amended): for every finite set of identities that are
nonempty and contain no character `str.splitlines` treats as a line
boundary (`\n`, `\r`, `\v`, `\f`, `\x1c`–`\x1e`, `\x85`, U+2028,
U+2029), `load_seen` after `save_seen` returns exactly the written
identities — whatever order the set was enumerated in. -/
theorem seen_roundtrip_amended (l : List String)
    (h : ∀ s ∈ l, s ≠ "" ∧ ∀ c ∈ s.data, isLineBoundary c = false) :
    load_seen (save_seen l) = l ∧
    (load_seen (save_seen l)).toFinset = l.toFinset := by
  have hl := seen_roundtrip_list l h
  exact ⟨hl, by rw [hl]⟩

/-- Witness for C10's amended theorem. -/
theorem seen_roundtrip_amended_witness :
    load_seen (save_seen ["id-one", "id-two"]) = ["id-one", "id-two"] ∧
    (load_seen (save_seen ["id-one", "id-two"])).toFinset =
      (["id-one", "id-two"] : List String).toFinset :=
  seen_roundtrip_amended ["id-one", "id-two"] (by decide)

/-- Witness for C1 on a concrete record/fragment pair. -/
theorem merge_review_idempotent_witness :
    merge_review (some recW) fragW 70 0 =
      some { recW with last_modified_date := some (.isoStr 70) } :=
  merge_review_idempotent recW fragW 70 0
    (by constructor <;> decide)
    (by decide) (by decide) (by decide) (fun _ => by decide) (by decide)
    (by decide) (fun _ => by decide)

end Scraper
